import Mathlib

/-!
Shallow embedding of `pyannote/audio/labeling/tasks/base.py`
(classes `LabelingTaskGenerator` and `LabelingTask`).

Modelling conventions:
* Python floats (durations, per_epoch, probabilities) are modelled as `ℚ`.
* A `pyannote.core.Segment` is a pair of rational endpoints.
* A protocol file is its unique identifier together with its `annotated`
  timeline (a list of segments, already cropped to the file support) —
  the label raster `y` is produced by the external collaborator
  `one_hot_encoding` and is not observable data for the claims below,
  so only the success/failure of the dictionary lookup that stores it
  is modelled.
* Python exceptions are modelled with `Option`/`Except`.
-/

namespace PyannoteAudio

/-- Half-open time interval `pyannote.core.Segment` with rational endpoints.
Since `end` is a Lean keyword, the field is called `stop`. -/
structure Segment where
  start : ℚ
  stop : ℚ
deriving Repr, DecidableEq

instance : Inhabited Segment := ⟨⟨0, 0⟩⟩

/-- Duration of a segment: `end - start`. -/
def Segment.duration (s : Segment) : ℚ := s.stop - s.start

/-- A protocol file as seen by the first indexing loop: its unique
identifier (`get_unique_identifier`) and its `annotated` timeline. -/
structure PFile where
  uri : ℕ
  annotated : List Segment
deriving Repr, DecidableEq

/-- One entry of the `data_` dictionary built by
`LabelingTaskGenerator.initialize` (base.py lines 140-157):
the eligible segments of a file and their total duration. -/
structure Datum where
  uri : ℕ
  segments : List Segment
  duration : ℚ
deriving Repr, DecidableEq

/-- base.py lines 140-141: `segments = [s for s in current_file['annotated']
if s.duration > self.duration]`. -/
def eligibleSegments (d : ℚ) (f : PFile) : List Segment :=
  f.annotated.filter (fun s => d < s.duration)

/-- First loop of `LabelingTaskGenerator.initialize` (base.py lines 118-157):
for each file keep the segments longer than the window duration; when no
segment survives the filter the file is skipped (`continue`) and gets no
`data_` entry; otherwise record the segments, their total duration and the
file. -/
def initPass1 (d : ℚ) (files : List PFile) : List Datum :=
  files.filterMap (fun f =>
    let segments := eligibleSegments d f
    if segments.isEmpty then none
    else some { uri := f.uri, segments := segments,
                duration := (segments.map Segment.duration).sum })

/-- Second loop of `LabelingTaskGenerator.initialize` (base.py lines 162-172):
for EVERY file of the subset it evaluates `self.data_[uri]['y'] = ...`; the
dictionary lookup `self.data_[uri]` raises `KeyError` when `uri` was skipped
by the first loop.  The raster itself (`one_hot_encoding`, `postprocess_y`)
is external and attaching it does not change the observable entry, so the
loop is modelled as the sequence of lookups: `none` models the `KeyError`. -/
def initFull (d : ℚ) (files : List PFile) : Option (List Datum) :=
  let data := initPass1 d files
  files.foldlM (fun acc f =>
    if acc.any (fun e => e.uri = f.uri) then some acc else none) data

/-- Prelude of `LabelingTaskGenerator.random_samples` (base.py line 195):
`durations = np.array([self.data_[uri]['duration'] for uri in uris])`. -/
def durationsVec (data : List Datum) : List ℚ :=
  data.map Datum.duration

/-- base.py line 196: `probabilities = durations / np.sum(durations)`,
elementwise division of the duration vector by its sum. -/
def probabilities (data : List Datum) : List ℚ :=
  (durationsVec data).map (fun x => x / (durationsVec data).sum)

/-- Embedding of `LabelingTaskGenerator.batches_per_epoch` (base.py lines
282-287):
`duration_per_epoch = per_epoch * 24 * 60 * 60`,
`duration_per_batch = duration * batch_size`,
`int(np.ceil(duration_per_epoch / duration_per_batch))`. -/
def batchesPerEpoch (perEpoch duration : ℚ) (batchSize : ℕ) : ℤ :=
  let durationPerEpoch : ℚ := perEpoch * 24 * 60 * 60
  let durationPerBatch : ℚ := duration * (batchSize : ℚ)
  ⌈durationPerEpoch / durationPerBatch⌉

/-- Helper: every `data_` entry produced by the indexing pass has strictly
positive total duration, provided the window duration is positive: each
retained segment is strictly longer than the window, and at least one segment
was retained (otherwise the file is skipped). -/
theorem duration_pos_of_mem_initPass1 (d : ℚ) (hd : 0 < d) (files : List PFile)
    (e : Datum) (he : e ∈ initPass1 d files) : 0 < e.duration := by
  simp only [initPass1, List.mem_filterMap] at he
  obtain ⟨f, _, hf⟩ := he
  by_cases hemp : (eligibleSegments d f).isEmpty
  · simp [hemp] at hf
  · simp only [hemp, if_neg, Option.some.injEq, Bool.false_eq_true,
      not_false_iff, if_false] at hf
    have hdur : e.duration = ((eligibleSegments d f).map Segment.duration).sum := by
      rw [← hf]
    rw [hdur]
    apply List.sum_pos
    · intro x hx
      simp only [List.mem_map] at hx
      obtain ⟨s, hs, rfl⟩ := hx
      have : d < s.duration := by
        simp only [eligibleSegments, List.mem_filter, decide_eq_true_eq] at hs
        exact hs.2
      linarith
    · intro hmap
      apply hemp
      rw [List.isEmpty_iff]
      exact List.map_eq_nil_iff.mp hmap

/-- C6: during corpus indexing, a segment of a file's annotated timeline is
retained as eligible if and only if its duration is strictly greater than the
window duration (segments whose duration exactly equals the window duration
are excluded). -/
theorem mem_eligibleSegments_iff (d : ℚ) (f : PFile) (s : Segment) :
    s ∈ eligibleSegments d f ↔ s ∈ f.annotated ∧ d < s.duration := by
  simp [eligibleSegments]

/-- C3: `batches_per_epoch` equals the ceiling of
(per_epoch × 24 × 60 × 60) / (window duration × batch_size). -/
theorem batchesPerEpoch_eq_ceil (p d : ℚ) (b : ℕ) :
    batchesPerEpoch p d b = ⌈(p * (24 * 60 * 60)) / (d * (b : ℚ))⌉ := by
  unfold batchesPerEpoch
  ring_nf

/-- C5: for every corpus index built with a positive window duration that
retains at least one file, the duration vector used by `random_samples` has a
strictly positive sum, so the probability normalization is well-defined. -/
theorem initPass1_durations_sum_pos (d : ℚ) (files : List PFile) (hd : 0 < d)
    (hne : initPass1 d files ≠ []) :
    0 < (durationsVec (initPass1 d files)).sum := by
  apply List.sum_pos
  · intro x hx
    simp only [durationsVec, List.mem_map] at hx
    obtain ⟨e, he, rfl⟩ := hx
    exact duration_pos_of_mem_initPass1 d hd files e he
  · simpa [durationsVec] using hne

/-- Witness for C5 at a concrete input: window duration 1, a single file whose
annotated timeline is the segment [0, 3). -/
theorem initPass1_durations_sum_pos_witness :
    (0 : ℚ) < 1 ∧ initPass1 1 [⟨0, [⟨0, 3⟩]⟩] ≠ [] ∧
      0 < (durationsVec (initPass1 1 [⟨0, [⟨0, 3⟩]⟩])).sum :=
  ⟨by norm_num,
    by simp [initPass1, eligibleSegments, Segment.duration],
    initPass1_durations_sum_pos 1 [⟨0, [⟨0, 3⟩]⟩] (by norm_num)
      (by simp [initPass1, eligibleSegments, Segment.duration])⟩

/-- C1 (code bug): subset with file 0 whose only annotated segment [0, 1) is
shorter than the window duration 2, and file 1 with eligible segment [0, 10).
The first loop silently drops file 0 (second conjunct: only file 1 is
indexed), but `initialize` as a whole does NOT complete: its second loop
evaluates `self.data_[uri]['y']` for every file of the subset and raises
`KeyError` on file 0 (first conjunct: the run aborts with `none`). -/
theorem initFull_keyerror_on_short_file :
    initFull 2 [⟨0, [⟨0, 1⟩]⟩, ⟨1, [⟨0, 10⟩]⟩] = none ∧
      initPass1 2 [⟨0, [⟨0, 1⟩]⟩, ⟨1, [⟨0, 10⟩]⟩] = [⟨1, [⟨0, 10⟩], 10⟩] := by
  constructor
  · simp [initFull, initPass1, eligibleSegments, Segment.duration]
  · norm_num [initPass1, eligibleSegments, Segment.duration,
      List.filterMap_cons]

/-- Helper: removing the zero entries of a list of rationals does not change
its sum. -/
theorem sum_filter_ne_zero_eq_sum (l : List ℚ) :
    (l.filter (fun x => decide (x ≠ 0))).sum = l.sum := by
  induction l with
  | nil => simp
  | cons a t ih =>
    simp only [List.filter_cons, decide_not] at ih ⊢
    by_cases ha : a = 0
    · simp [ha, ih]
    · simp [ha, ih]

/-- C2: in `random_samples`, a file with usable duration 0 gets sampling
weight 0 (it is absent from the sampled-file set), and every indexed file's
weight equals its total eligible-segment duration divided by the sum of the
durations of the remaining (nonzero-duration) indexed files. -/
theorem probabilities_spec (data : List Datum) (i : ℕ) (h : i < data.length) :
    ((probabilities data).getD i 0 =
      (data.get ⟨i, h⟩).duration /
        ((durationsVec data).filter (fun x => decide (x ≠ 0))).sum)
    ∧ ((data.get ⟨i, h⟩).duration = 0 → (probabilities data).getD i 0 = 0) := by
  have hlen : i < (probabilities data).length := by
    simpa [probabilities, durationsVec] using h
  have hval : (probabilities data).getD i 0 =
      (data.get ⟨i, h⟩).duration / (durationsVec data).sum := by
    rw [List.getD_eq_getElem _ _ hlen]
    simp [probabilities, durationsVec]
  refine ⟨?_, ?_⟩
  · rw [hval, sum_filter_ne_zero_eq_sum]
  · intro h0
    rw [hval, h0, zero_div]

/-- Witness for C2: a two-file index where file 0 has duration 0; its
sampling weight evaluates to 0. -/
theorem probabilities_spec_witness :
    (probabilities [⟨0, [], 0⟩, ⟨1, [], 5⟩]).getD 0 0 = 0 :=
  (probabilities_spec [⟨0, [], 0⟩, ⟨1, [], 5⟩] 0 (by norm_num)).2 rfl

/-- Helper: `batchesPerEpoch` written as a single ceiling expression. -/
theorem batchesPerEpoch_def (p d : ℚ) (b : ℕ) :
    batchesPerEpoch p d b = ⌈p * 24 * 60 * 60 / (d * (b : ℚ))⌉ := rfl

/-- C8: for fixed window duration, `batches_per_epoch` is monotonically
non-increasing in batch_size and monotonically non-decreasing in per_epoch. -/
theorem batchesPerEpoch_monotone (p p' d : ℚ) (b b' : ℕ)
    (hp : 0 ≤ p) (hd : 0 < d) (hb : 0 < b) :
    (b ≤ b' → batchesPerEpoch p d b' ≤ batchesPerEpoch p d b)
    ∧ (p ≤ p' → batchesPerEpoch p d b ≤ batchesPerEpoch p' d b) := by
  have hbq : (0 : ℚ) < (b : ℚ) := by exact_mod_cast hb
  constructor
  · intro hbb
    rw [batchesPerEpoch_def, batchesPerEpoch_def]
    apply Int.ceil_le_ceil
    apply div_le_div_of_nonneg_left
    · linarith
    · exact mul_pos hd hbq
    · have hbb' : (b : ℚ) ≤ (b' : ℚ) := by exact_mod_cast hbb
      exact mul_le_mul_of_nonneg_left hbb' hd.le
  · intro hpp
    rw [batchesPerEpoch_def, batchesPerEpoch_def]
    apply Int.ceil_le_ceil
    exact (div_le_div_iff_of_pos_right (mul_pos hd hbq)).mpr (by linarith)

/-- Witness for C8 at per_epoch 1 and 2, duration 2, batch sizes 1 and 2. -/
theorem batchesPerEpoch_monotone_witness :
    batchesPerEpoch 1 2 2 ≤ batchesPerEpoch 1 2 1 ∧
      batchesPerEpoch 1 2 1 ≤ batchesPerEpoch 2 2 1 :=
  ⟨(batchesPerEpoch_monotone 1 1 2 1 2 (by norm_num) (by norm_num)
      (by norm_num)).1 (by norm_num),
   (batchesPerEpoch_monotone 1 2 2 1 1 (by norm_num) (by norm_num)
      (by norm_num)).2 (by norm_num)⟩

/-- State of the round-robin loop at the end of
`LabelingTaskGenerator.__call__` (base.py lines 331-337): the index into the
`generators` list of the generator currently being served, how many batches
were already yielded from it in the current epoch, and how many batches have
been consumed (`next(batches)` calls) from each generator so far. -/
structure CallState where
  producer : ℕ
  served : ℕ
  consumed : ℕ → ℕ

/-- Initial state: the outer `while True` starts at the first generator with
nothing consumed. -/
def callInit : CallState := ⟨0, 0, fun _ => 0⟩

/-- One iteration of the innermost `yield next(batches)` (base.py lines
332-337) for `numGen` generators and `B = batches_per_epoch`: yield the next
unconsumed batch of the current generator; after `B` yields the inner `for`
ends and the `for batches in generators` loop (restarted by `while True`)
moves on to the next generator, cyclically. -/
def callStep {α : Type} (numGen B : ℕ) (producers : ℕ → ℕ → α)
    (s : CallState) : α × CallState :=
  let batch := producers s.producer (s.consumed s.producer)
  let consumed' : ℕ → ℕ :=
    fun q => if q = s.producer then s.consumed q + 1 else s.consumed q
  (batch,
    if s.served + 1 < B then ⟨s.producer, s.served + 1, consumed'⟩
    else ⟨(s.producer + 1) % numGen, 0, consumed'⟩)

/-- State of the `__call__` loop after `t` yielded batches. -/
def callState {α : Type} (numGen B : ℕ) (producers : ℕ → ℕ → α) :
    ℕ → CallState
  | 0 => callInit
  | t + 1 => (callStep numGen B producers (callState numGen B producers t)).2

/-- The `t`-th batch yielded by `__call__` (0-based). -/
def callOutput {α : Type} (numGen B : ℕ) (producers : ℕ → ℕ → α)
    (t : ℕ) : α :=
  (callStep numGen B producers (callState numGen B producers t)).1

/-- Helper: closed form of the loop control state — after `t` batches the
loop is serving generator `(t / B) % numGen` and has yielded `t % B` batches
of the current epoch. -/
theorem callState_closed_form {α : Type} (numGen B : ℕ)
    (producers : ℕ → ℕ → α) (_hN : 0 < numGen) (hB : 0 < B) (t : ℕ) :
    (callState numGen B producers t).producer = (t / B) % numGen ∧
      (callState numGen B producers t).served = t % B := by
  induction t with
  | zero => simp [callState, callInit]
  | succ t ih =>
    obtain ⟨hprod, hserved⟩ := ih
    have hdm := Nat.div_add_mod t B
    have hrlt : t % B < B := Nat.mod_lt t hB
    rw [callState, callStep]
    by_cases hlt : (callState numGen B producers t).served + 1 < B
    · have hr1 : t % B + 1 < B := by rw [← hserved]; exact hlt
      have key : t + 1 = B * (t / B) + (t % B + 1) := by
        rw [← Nat.add_assoc, hdm]
      have hdiv : (t + 1) / B = t / B := by
        rw [key, Nat.mul_add_div hB, Nat.div_eq_of_lt hr1, Nat.add_zero]
      have hmod : (t + 1) % B = t % B + 1 := by
        rw [key, Nat.mul_add_mod, Nat.mod_eq_of_lt hr1]
      rw [if_pos hlt]
      refine ⟨?_, ?_⟩
      · show (callState numGen B producers t).producer = (t + 1) / B % numGen
        rw [hprod, hdiv]
      · show (callState numGen B producers t).served + 1 = (t + 1) % B
        rw [hserved, hmod]
    · have hr1 : t % B + 1 = B := by
        have h2 : ¬ t % B + 1 < B := by rw [← hserved]; exact hlt
        omega
      have key : t + 1 = B * (t / B) + B := by
        calc t + 1 = B * (t / B) + (t % B + 1) := by rw [← Nat.add_assoc, hdm]
          _ = B * (t / B) + B := by rw [hr1]
      have hdiv : (t + 1) / B = t / B + 1 := by
        rw [key, Nat.mul_add_div hB, Nat.div_self hB]
      have hmod : (t + 1) % B = 0 := by
        rw [key, Nat.mul_add_mod, Nat.mod_self]
      rw [if_neg hlt]
      refine ⟨?_, ?_⟩
      · show ((callState numGen B producers t).producer + 1) % numGen =
          (t + 1) / B % numGen
        rw [hprod, hdiv, Nat.mod_add_mod]
      · show (0 : ℕ) = (t + 1) % B
        rw [hmod]

/-- C4: the batch stream of `__call__` never switches generators within an
epoch: the `t`-th batch is served by generator `(t / B) % numGen` — so all
`B = batches_per_epoch` batches of epoch `e = t / B` come from the single
generator `e % numGen`, and successive epochs advance through the generators
in fixed cyclic order, indefinitely — and that batch is the next unconsumed
batch of that generator. -/
theorem call_round_robin {α : Type} (numGen B : ℕ) (producers : ℕ → ℕ → α)
    (hN : 0 < numGen) (hB : 0 < B) (t : ℕ) :
    (callState numGen B producers t).producer = (t / B) % numGen ∧
      callOutput numGen B producers t =
        producers ((t / B) % numGen)
          ((callState numGen B producers t).consumed ((t / B) % numGen)) := by
  have h := callState_closed_form numGen B producers hN hB t
  refine ⟨h.1, ?_⟩
  rw [callOutput, callStep, ← h.1]

/-- Witness for C4: two generators, three batches per epoch; the 8th batch
(t = 7) is served by generator (7 / 3) % 2. -/
theorem call_round_robin_witness :
    (callState 2 3 (fun p k => p * 100 + k) 7).producer = (7 / 3) % 2 ∧
      callOutput 2 3 (fun p k => p * 100 + k) 7 =
        (fun p k => p * 100 + k) ((7 / 3) % 2)
          ((callState 2 3 (fun p k => p * 100 + k) 7).consumed ((7 / 3) % 2)) :=
  call_round_robin 2 3 (fun p k => p * 100 + k) (by norm_num) (by norm_num) 7

/-- base.py lines 249-252 (exhaustive mode): each `annotated` segment has its
start time shifted by `np.random.random() * self.duration` — the draw `r` is
uniform in [0, 1) — while its end time is unchanged:
`Segment(s.start + np.random.random() * self.duration, s.end)`. -/
def shiftSegment (d r : ℚ) (s : Segment) : Segment :=
  ⟨s.start + r * d, s.stop⟩

/-- The shifted `annotated` timeline of one pass: one independent draw per
annotated region (`rs` lists the draws in region order). -/
def shiftedAnnotated (d : ℚ) (rs : List ℚ) (annotated : List Segment) :
    List Segment :=
  List.zipWith (fun r s => shiftSegment d r s) rs annotated

/-- Number of sliding windows that fit in a segment, for the
`SlidingSegments(duration=self.duration, step=self.duration)` collaborator
configured by `sliding_samples` (base.py lines 228-230): windows start at
`s.start + k * step` and are kept while they end inside the segment. -/
def numWindows (dur step : ℚ) (s : Segment) : ℕ :=
  if 0 < step ∧ dur ≤ s.duration then (⌊(s.duration - dur) / step⌋ + 1).toNat
  else 0

/-- The sliding windows over one segment: window `k` is
`[s.start + k * step, s.start + k * step + dur)`. -/
def slidingWindows (dur step : ℚ) (s : Segment) : List Segment :=
  (List.range (numWindows dur step s)).map
    (fun k : ℕ => ⟨s.start + (k : ℚ) * step, s.start + (k : ℚ) * step + dur⟩)

/-- base.py line 257: the samples of one pass over a file in exhaustive mode
are the sliding windows (with step = window duration) over the shifted
annotated regions. -/
def slidingSamplesPass (d : ℚ) (rs : List ℚ) (annotated : List Segment) :
    List Segment :=
  (shiftedAnnotated d rs annotated).flatMap (slidingWindows d d)

/-- C7: in exhaustive/sliding mode, on every pass each annotated region
independently gets its start increased by `r * duration` (a value in
[0, window_duration) when the draw `r` is in [0, 1)) with its end unchanged,
and windows are slid with step equal to the window duration: every window has
duration `d` and consecutive windows of a region are adjacent
(non-overlapping). -/
theorem sliding_shift_spec (d : ℚ) (rs : List ℚ) (annotated : List Segment)
    (hd : 0 < d) (hr : ∀ r ∈ rs, 0 ≤ r ∧ r < 1) (i : ℕ)
    (hi : i < (shiftedAnnotated d rs annotated).length) :
    ((shiftedAnnotated d rs annotated).getD i default =
        shiftSegment d (rs.getD i 0) (annotated.getD i default)
      ∧ ((shiftedAnnotated d rs annotated).getD i default).stop =
          (annotated.getD i default).stop
      ∧ 0 ≤ rs.getD i 0 * d ∧ rs.getD i 0 * d < d
      ∧ ((shiftedAnnotated d rs annotated).getD i default).start =
          (annotated.getD i default).start + rs.getD i 0 * d)
    ∧ (∀ s : Segment, ∀ k : ℕ,
        (k < (slidingWindows d d s).length →
          ((slidingWindows d d s).getD k default).duration = d)
        ∧ (k + 1 < (slidingWindows d d s).length →
          ((slidingWindows d d s).getD (k + 1) default).start =
            ((slidingWindows d d s).getD k default).stop)) := by
  have hlen : (shiftedAnnotated d rs annotated).length =
      min rs.length annotated.length := by
    simp [shiftedAnnotated]
  have hmin : i < min rs.length annotated.length := by rw [← hlen]; exact hi
  have hir : i < rs.length := lt_of_lt_of_le hmin (min_le_left _ _)
  have hia : i < annotated.length := lt_of_lt_of_le hmin (min_le_right _ _)
  have hrs : rs.getD i 0 = rs[i] := List.getD_eq_getElem _ _ hir
  have han : annotated.getD i default = annotated[i] :=
    List.getD_eq_getElem _ _ hia
  have hval : (shiftedAnnotated d rs annotated).getD i default =
      shiftSegment d (rs.getD i 0) (annotated.getD i default) := by
    rw [List.getD_eq_getElem _ _ hi, hrs, han]
    simp [shiftedAnnotated, List.getElem_zipWith]
  have hmem : rs.getD i 0 ∈ rs := by
    rw [hrs]; exact List.getElem_mem hir
  obtain ⟨hr0, hr1⟩ := hr _ hmem
  refine ⟨⟨hval, ?_, ?_, ?_, ?_⟩, ?_⟩
  · rw [hval]; rfl
  · exact mul_nonneg hr0 hd.le
  · calc rs.getD i 0 * d < 1 * d := mul_lt_mul_of_pos_right hr1 hd
      _ = d := one_mul d
  · rw [hval]; rfl
  · intro s k
    constructor
    · intro hk
      rw [List.getD_eq_getElem _ _ hk]
      simp only [slidingWindows, List.getElem_map, List.getElem_range,
        Segment.duration]
      ring
    · intro hk1
      have hk : k < (slidingWindows d d s).length := by omega
      rw [List.getD_eq_getElem _ _ hk1, List.getD_eq_getElem _ _ hk]
      simp only [slidingWindows, List.getElem_map, List.getElem_range,
        Nat.cast_add, Nat.cast_one]
      ring

/-- Witness for C7: window duration 2, a single annotated region [0, 10)
with draw 1/2; its shifted copy keeps its end time. -/
theorem sliding_shift_spec_witness :
    ((shiftedAnnotated 2 [1/2] [⟨0, 10⟩]).getD 0 default).stop =
      (([⟨0, 10⟩] : List Segment).getD 0 default).stop :=
  ((sliding_shift_spec 2 [1/2] [⟨0, 10⟩] (by norm_num)
      (by intro r hrm; rw [List.mem_singleton] at hrm; rw [hrm]; norm_num) 0
      (by norm_num [shiftedAnnotated])).1).2.1

/-- The task-type tags `TASK_CLASSIFICATION`, `TASK_MULTI_LABEL_CLASSIFICATION`
and `TASK_REGRESSION` dispatched on by `LabelingTask.batch_loss`. -/
inductive TaskType
  | classification
  | multiLabelClassification
  | regression
deriving Repr, DecidableEq

/-- Python exceptions raised by the `LabelingTask` methods. -/
inductive PyError
  | valueError (msg : String)
  | attributeError (msg : String)
deriving Repr, DecidableEq

/-- A batch as assembled by `batchify`: stacked features and labels.  Tensor
payloads are opaque rational vectors; dtype conversions are not observable. -/
structure Batch where
  X : List ℚ
  y : List ℚ
deriving Repr, DecidableEq

/-- The subclass-facing configuration of a `LabelingTask`: its `task_type`,
`n_classes` and `weight` properties.  The base-class `weight` property
returns `None` (base.py lines 395-403), modelled as `none`. -/
structure TaskConfig where
  taskType : TaskType
  nClasses : ℕ
  weight : Option ℚ
deriving Repr, DecidableEq

/-- Embedding of `LabelingTask.on_train_start` (base.py lines 405-413): raises
`ValueError('n_classes mismatch')` when the loaded model's `n_classes`
differs from the task's; otherwise it sets up the loss function and the
logging deques (opaque, modelled as unit). -/
def onTrainStart (modelNClasses : ℕ) (task : TaskConfig) :
    Except PyError Unit :=
  if modelNClasses ≠ task.nClasses then
    Except.error (PyError.valueError ("n_classes mismatch"))
  else Except.ok ()

/-- Python attribute access `w.to(device=device)`: on `None` there is no
`to` attribute, so an `AttributeError` is raised. -/
def weightTo (w : Option ℚ) : Except PyError ℚ :=
  match w with
  | none => Except.error (PyError.attributeError ("to"))
  | some x => Except.ok x

/-- Embedding of `LabelingTask.batch_loss` (base.py lines 415-437): builds
`fX` and the
target tensor according to `task_type` (the three branches differ only in
dtype and reshaping, not observable here), then returns
`self.loss_func_(fX, target, weight=self.weight.to(device=device))` — the
`.to` call on `self.weight` happens on every path, whatever the task type. -/
def batchLoss (task : TaskConfig) (lossFunc : List ℚ → List ℚ → ℚ → ℚ)
    (model : List ℚ → List ℚ) (batch : Batch) : Except PyError ℚ :=
  let fX := model batch.X
  let target : List ℚ :=
    match task.taskType with
    | TaskType.classification => batch.y
    | TaskType.multiLabelClassification => batch.y
    | TaskType.regression => batch.y
  match weightTo task.weight with
  | Except.error e => Except.error e
  | Except.ok w => Except.ok (lossFunc fX target w)

/-- Modelled from the spec: the training-loop driver
(`pyannote.audio.train.trainer.Trainer`, imported by base.py but not under
src/) "calls the Labeling Task Driver's per-batch loss and per-epoch-end
hooks", and configuration errors are "fatal, raised immediately before any
batch is processed" — i.e. the driver invokes `on_train_start` once and only
then feeds batches to `batch_loss`.  A run yields the per-batch losses, or
aborts with the start-up error having processed no batch. -/
def trainRun (modelNClasses : ℕ) (task : TaskConfig)
    (lossFunc : List ℚ → List ℚ → ℚ → ℚ) (model : List ℚ → List ℚ)
    (batches : List Batch) : Except PyError (List (Except PyError ℚ)) :=
  match onTrainStart modelNClasses task with
  | Except.error e => Except.error e
  | Except.ok _ => Except.ok (batches.map (batchLoss task lossFunc model))

/-- C9: `on_train_start` raises `ValueError` if and only if the loaded
model's `n_classes` differs from the task's, and on a mismatch the whole
training run aborts with that error before any batch reaches `batch_loss`
(the run result carries no batch loss). -/
theorem onTrainStart_spec (m : ℕ) (task : TaskConfig)
    (lossFunc : List ℚ → List ℚ → ℚ → ℚ) (model : List ℚ → List ℚ)
    (batches : List Batch) :
    (onTrainStart m task = Except.error (PyError.valueError ("n_classes mismatch"))
      ↔ m ≠ task.nClasses)
    ∧ (m ≠ task.nClasses →
        trainRun m task lossFunc model batches =
          Except.error (PyError.valueError ("n_classes mismatch"))) := by
  constructor
  · constructor
    · intro h
      by_contra heq
      rw [onTrainStart, if_neg (by simp [heq])] at h
      exact Except.noConfusion h
    · intro hne
      rw [onTrainStart, if_pos hne]
  · intro hne
    rw [trainRun, onTrainStart, if_pos hne]

/-- Witness for C9: a model with 3 classes attached to a task with 2 classes
aborts the run with the ValueError. -/
theorem onTrainStart_spec_witness :
    trainRun 3 ⟨TaskType.classification, 2, none⟩ (fun _ _ _ => 0)
        (fun x => x) [] =
      Except.error (PyError.valueError ("n_classes mismatch")) :=
  (onTrainStart_spec 3 ⟨TaskType.classification, 2, none⟩ (fun _ _ _ => 0)
      (fun x => x) []).2 (by norm_num)

/-- C10: for every task whose `weight` property is the inherited default
`None`, every call to `batch_loss` fails with an `AttributeError`, whatever
the task type, loss function, model and batch: `batch_loss` unconditionally
evaluates `self.weight.to(device=device)`. -/
theorem batchLoss_fails_without_weight (task : TaskConfig)
    (lossFunc : List ℚ → List ℚ → ℚ → ℚ) (model : List ℚ → List ℚ)
    (batch : Batch) (hw : task.weight = none) :
    batchLoss task lossFunc model batch =
      Except.error (PyError.attributeError ("to")) := by
  rw [batchLoss, hw]
  rfl

/-- Witness for C10: a classification task with the default `weight = None`
fails on a concrete batch. -/
theorem batchLoss_fails_without_weight_witness :
    batchLoss ⟨TaskType.classification, 2, none⟩ (fun _ _ _ => 0)
        (fun x => x) ⟨[1], [0]⟩ =
      Except.error (PyError.attributeError ("to")) :=
  batchLoss_fails_without_weight ⟨TaskType.classification, 2, none⟩
    (fun _ _ _ => 0) (fun x => x) ⟨[1], [0]⟩ rfl

end PyannoteAudio
